import Mathlib

/-!
Verification of the typed-value tunnel of the Python-RPC repository.

The development shallowly embeds the code of `utils.py`, `server.py` and
`client.py`:

* Python values that flow through the codec are modelled by the inductive
  type `Value` (booleans, arbitrary-precision integers, floats, strings,
  list-like and tuple-like sequences, keyed mappings with string keys as
  produced by keyword arguments, `None`, and opaque passthrough objects).
* Python floats are identified with their textual rendering as produced by
  `str()`: a finite float carries its rendering, and the special values
  `inf`, `-inf`, `nan` are separate constructors.  `str()` renderings
  round-trip through `float()` by language guarantee; the model's float
  parser validates literal syntax and is exact on renderings.  IEEE
  arithmetic itself is outside the model and is abstracted where a handler
  would perform it.
* `int(...)` / `float(...)` of the standard library are modelled by
  executable parsers returning `Option`, mirroring that a `ValueError` is
  the only failure mode (the code catches it).  The parsers strip
  surrounding ASCII whitespace, accept an optional sign, and read digit
  runs with single underscores between digits (and for floats the
  case-insensitive `inf`/`infinity`/`nan` tokens), exactly as the Python
  constructors do on ASCII text.  Python additionally accepts non-ASCII
  decimal digits and non-ASCII whitespace; those are outside the model,
  so the theorems that quantify over arbitrary marker payloads restrict
  to ASCII strings (`asciiOnly`), the domain on which the parser models
  are exact.
-/

/-- Python float values, identified with their `str()` rendering.  A finite
float carries its canonical textual rendering; the special values are
separate constructors rendered as `inf`, `-inf`, `nan`. -/
inductive PyFloat where
  | finite (r : String)
  | inf
  | negInf
  | nan
deriving DecidableEq

/-- Python values in the space exercised by the codec. -/
inductive Value where
  | vNone
  | vBool (b : Bool)
  | vInt (n : Int)
  | vFloat (f : PyFloat)
  | vStr (s : String)
  | vList (xs : List Value)
  | vTuple (xs : List Value)
  | vDict (kvs : List (String × Value))
  | vOther (tag : Nat)

/-! Decimal text for integers, modelling the f-string rendering and
`int(...)` parsing used by the codec. -/

/-- The character for the decimal digit `d` (`d < 10`). -/
def digitChar (d : Nat) : Char := Char.ofNat (48 + d)

/-- Whether `c` is an ASCII decimal digit. -/
def isDigitCh (c : Char) : Bool := 48 ≤ c.toNat && c.toNat ≤ 57

/-- The value of an ASCII digit character, if it is one. -/
def digitVal (c : Char) : Option Nat :=
  if 48 ≤ c.toNat && c.toNat ≤ 57 then some (c.toNat - 48) else none

/-- Little-endian decimal digits of `n`, computed with explicit fuel so the
definition is structural. -/
def natDigitsAux : Nat → Nat → List Nat
  | 0, _ => []
  | _ + 1, 0 => []
  | fuel + 1, n + 1 => ((n + 1) % 10) :: natDigitsAux fuel ((n + 1) / 10)

/-- Little-endian decimal digits of `n` (empty for `0`). -/
def natDigits (n : Nat) : List Nat := natDigitsAux n n

/-- Decimal rendering of a natural number, as `str()` produces it. -/
def natRepr (n : Nat) : String :=
  if n = 0 then "0" else ⟨((natDigits n).map digitChar).reverse⟩

/-- Decimal rendering of an integer, as the f-string interpolation of the
value produces it. -/
def intRepr (n : Int) : String :=
  if n < 0 then "-" ++ natRepr n.natAbs else natRepr n.natAbs

/-- Digit values of a character list; `none` if any character is not a digit. -/
def charsToDigits : List Char → Option (List Nat)
  | [] => some []
  | c :: cs =>
    match digitVal c, charsToDigits cs with
    | some d, some ds => some (d :: ds)
    | _, _ => none

/-- Value of a big-endian digit list. -/
def digitsToNat (ds : List Nat) : Nat := ds.foldl (fun acc d => acc * 10 + d) 0

/-- Parse a non-empty all-digit character list as a natural number. -/
def parseNatChars (cs : List Char) : Option Nat :=
  match charsToDigits cs with
  | some [] => none
  | some ds => some (digitsToNat ds)
  | none => none

/-- The ASCII whitespace Python's numeric constructors strip around their
input: TAB, LF, VT, FF, CR and SPACE (checked against `int`/`float`
behaviour; the C0 separators 0x1C-0x1F are not stripped). -/
def isPySpace (c : Char) : Bool :=
  (9 ≤ c.toNat && c.toNat ≤ 13) || c.toNat == 32

/-- Strip leading and trailing whitespace, as `int(...)`/`float(...)` do. -/
def stripWs (cs : List Char) : List Char :=
  ((cs.dropWhile isPySpace).reverse.dropWhile isPySpace).reverse

/-- Whether the list starts with a decimal digit. -/
def leadDigit : List Char → Bool
  | c :: _ => isDigitCh c
  | [] => false

/-- Consume a maximal run of decimal digits with single underscores
allowed between two digits (Python's digit-group rule: `1_0` is a run,
`1_`, `_1` and `1__0` are not); returns the unconsumed remainder.
Callers check `leadDigit` first, so the list starts with a digit. -/
def digitRunRest : List Char → List Char
  | [] => []
  | c :: rest =>
    if isDigitCh c then digitRunRest rest
    else if c = '_' then
      match rest with
      | c2 :: rest2 => if isDigitCh c2 then digitRunRest rest2 else c :: rest
      | [] => c :: rest
    else c :: rest

/-- Parse a complete digit run (underscores between digits allowed) as a
natural number; `none` when the text is not exactly one such run. -/
def parseNatRun (cs : List Char) : Option Nat :=
  if leadDigit cs && digitRunRest cs == ([] : List Char) then
    parseNatChars (cs.filter (fun c => c != '_'))
  else none

/-- Model of Python `int(s)` in base 10: surrounding ASCII whitespace is
stripped, then an optional sign followed by a digit run with single
underscores between digits; `none` models the `ValueError` raised on any
other input.  The model is exact for ASCII strings; Python additionally
accepts non-ASCII decimal digits and non-ASCII whitespace, which are
outside the model, so theorems quantifying over marker payloads carry an
ASCII hypothesis. -/
def parseIntStr (s : String) : Option Int :=
  match stripWs s.data with
  | [] => none
  | c :: rest =>
    if c = '-' then (parseNatRun rest).map (fun m => -(Int.ofNat m))
    else if c = '+' then (parseNatRun rest).map (fun m => Int.ofNat m)
    else (parseNatRun (c :: rest)).map (fun m => Int.ofNat m)

/-! Float literal syntax, modelling `float(...)` validation. -/

/-- ASCII lowercasing of one character, for the case-insensitive special
tokens accepted by `float(...)`. -/
def lowerChar (c : Char) : Char :=
  if 65 ≤ c.toNat && c.toNat ≤ 90 then Char.ofNat (c.toNat + 32) else c

/-- Split an optional leading sign off a character list, returning whether
the sign was negative. -/
def splitSign : List Char → Bool × List Char
  | [] => (false, [])
  | c :: rest =>
    if c = '-' then (true, rest)
    else if c = '+' then (false, rest)
    else (false, c :: rest)

/-- Drop an optional exponent sign. -/
def afterExpSign : List Char → List Char
  | c :: rest => if c = '-' ∨ c = '+' then rest else c :: rest
  | [] => []

/-- Whether `cs` is empty or a complete exponent part
`(e|E)[+|-]digit-run` (underscores between digits allowed, as Python's
`float(...)` accepts, e.g. `1e1_0`). -/
def checkExpTail : List Char → Bool
  | [] => true
  | c :: r =>
    (c == 'e' || c == 'E') &&
      (let r2 := afterExpSign r
       leadDigit r2 && digitRunRest r2 == ([] : List Char))

/-- Whether `cs` is an unsigned float literal body:
`run[.run?][exp]` or `.run[exp]`, each `run` a digit run with single
underscores between digits (`1_0.5`, `.5_5`, `1.` are valid; `1_.5`,
`1.5_` are not, matching `float(...)`). -/
def checkFloatBody (cs : List Char) : Bool :=
  let hasInt := leadDigit cs
  let rest := if hasInt then digitRunRest cs else cs
  match rest with
  | '.' :: r2 =>
    let hasFrac := leadDigit r2
    let r3 := if hasFrac then digitRunRest r2 else r2
    (hasInt || hasFrac) && checkExpTail r3
  | _ => hasInt && checkExpTail rest

/-- The `str()` rendering of a Python float. -/
def floatStr : PyFloat → String
  | .finite r => r
  | .inf => "inf"
  | .negInf => "-inf"
  | .nan => "nan"

/-- Model of Python `float(s)`: surrounding ASCII whitespace is stripped;
a decimal literal (underscores between digits allowed) yields a finite
float carrying the accepted text, the case-insensitive special tokens
yield the special values, anything else is `none` (the `ValueError` the
code catches).  A valid literal and a special token are mutually
exclusive (a literal must contain a digit), so checking the literal first
is observationally the same as Python's combined parser.  Like the
integer parser, the model is exact for ASCII strings; non-ASCII digits
and whitespace are outside the model. -/
def floatParse (s : String) : Option PyFloat :=
  let sp := splitSign (stripWs s.data)
  if checkFloatBody sp.2 then some (.finite s)
  else
    let lb := sp.2.map lowerChar
    if lb = "inf".data ∨ lb = "infinity".data then
      some (if sp.1 then .negInf else .inf)
    else if lb = "nan".data then some .nan
    else none

/-- A float value whose rendering is well formed: for a finite float the
carried text is a valid signed literal with no surrounding whitespace
(every `str()` rendering is).  The special values are always well
formed. -/
def PyFloat.goodRepr : PyFloat → Bool
  | .finite r => checkFloatBody (splitSign r.data).2 && stripWs r.data == r.data
  | _ => true

/-- Whether every character of a string is ASCII: the domain on which the
`int(...)`/`float(...)` parser models are exact. -/
def asciiOnly (s : String) : Bool := s.data.all (fun c => c.toNat < 128)

/-! The marker-tag codec of `utils.py`. -/

/-- The integer marker tag. -/
def intTag : String := "__INT__"

/-- The float marker tag. -/
def floatTag : String := "__FLOAT__"

/-- Whether the character list `t` is an initial segment of `s`. -/
def hasPre : List Char → List Char → Bool
  | [], _ => true
  | _ :: _, [] => false
  | p :: ps, c :: cs => p == c && hasPre ps cs

/-- Model of `s.startswith(t)`. -/
def pyStartsWith (s t : String) : Bool := hasPre t.data s.data

/-- Model of the slice `s[n:]`. -/
def strDrop (s : String) (n : Nat) : String := ⟨s.data.drop n⟩

mutual

/-- Embedding of `convert_value_for_xmlrpc` (utils.py lines 62-75).  The
source checks `bool` before `int` because Python booleans are an `int`
subtype; the embedding keeps the kinds as distinct constructors, so the
boolean case returns the value unchanged and only true integers are
tagged.  Both list-like and tuple-like sequences are rebuilt with a list
comprehension in the source, so both become list-like here. -/
def convert_value_for_xmlrpc : Value → Value
  | .vBool b => .vBool b
  | .vInt n => .vStr (intTag ++ intRepr n)
  | .vFloat f => .vStr (floatTag ++ floatStr f)
  | .vList xs => .vList (convertListFor xs)
  | .vTuple xs => .vList (convertListFor xs)
  | .vDict kvs => .vDict (convertKVsFor kvs)
  | .vStr s => .vStr s
  | .vNone => .vNone
  | .vOther t => .vOther t

/-- Per-element encoding of a sequence (the list comprehension). -/
def convertListFor : List Value → List Value
  | [] => []
  | x :: xs => convert_value_for_xmlrpc x :: convertListFor xs

/-- Per-value encoding of a mapping (the dict comprehension; keys kept). -/
def convertKVsFor : List (String × Value) → List (String × Value)
  | [] => []
  | kv :: kvs => (kv.1, convert_value_for_xmlrpc kv.2) :: convertKVsFor kvs

end

mutual

/-- Embedding of `convert_value_from_xmlrpc` (utils.py lines 78-98): a
string with the `__INT__` (resp. `__FLOAT__`) tag has its remainder parsed
as an integer (resp. float) and is returned unchanged on parse failure;
sequences recurse preserving their kind (the source rebuilds with
`type(value)(...)`); mappings recurse per value; everything else passes
through. -/
def convert_value_from_xmlrpc : Value → Value
  | .vStr s =>
    if pyStartsWith s intTag then
      match parseIntStr (strDrop s 7) with
      | some n => .vInt n
      | none => .vStr s
    else if pyStartsWith s floatTag then
      match floatParse (strDrop s 9) with
      | some f => .vFloat f
      | none => .vStr s
    else .vStr s
  | .vList xs => .vList (convertListFrom xs)
  | .vTuple xs => .vTuple (convertListFrom xs)
  | .vDict kvs => .vDict (convertKVsFrom kvs)
  | .vBool b => .vBool b
  | .vInt n => .vInt n
  | .vFloat f => .vFloat f
  | .vNone => .vNone
  | .vOther t => .vOther t

/-- Per-element decoding of a sequence. -/
def convertListFrom : List Value → List Value
  | [] => []
  | x :: xs => convert_value_from_xmlrpc x :: convertListFrom xs

/-- Per-value decoding of a mapping. -/
def convertKVsFrom : List (String × Value) → List (String × Value)
  | [] => []
  | kv :: kvs => (kv.1, convert_value_from_xmlrpc kv.2) :: convertKVsFrom kvs

end

/-! Dictionary-shaped wire values and Python semantic helpers used by the
server dispatcher (`server.py`). -/

/-- Wire key for positional arguments. -/
def argsKey : String := "args"

/-- Wire key for keyword arguments. -/
def kwargsKey : String := "kwargs"

/-- Wire key for the creation timestamp. -/
def timestampKey : String := "timestamp"

/-- Wire key for the status code. -/
def responseCodeKey : String := "response_code"

/-- Wire key for the error message. -/
def errorKey : String := "error"

/-- Wire key for the result value. -/
def resultKey : String := "result"

/-- The structural discriminator flag marking a serialized `Data` object. -/
def dataFlagKey : String := "_is_data_object"

/-- The introspection namespace. -/
def sysNamespace : String := "system."

/-- Model of `dict.get(k)` on an association list with unique keys (every
mapping handled here originates from a Python dict). -/
def dictGet (kvs : List (String × Value)) (k : String) : Option Value :=
  match kvs.find? (fun kv => kv.1 == k) with
  | some kv => some kv.2
  | none => none

/-- Model of `dict.update`: existing keys are overwritten in place, new
keys are appended in order (Python insertion-order semantics on assoc
lists with unique keys). -/
def dictUpdate (d e : List (String × Value)) : List (String × Value) :=
  (d.map (fun kv =>
    match dictGet e kv.1 with
    | some v => (kv.1, v)
    | none => kv))
  ++ e.filter (fun kv => (dictGet d kv.1).isNone)

/-- Rendering of float zero, the only falsy finite rendering `str()`
produces. -/
def zeroFloatRepr : String := "0.0"

/-- Rendering of negative float zero. -/
def negZeroFloatRepr : String := "-0.0"

/-- Model of Python truthiness, `bool(v)`. -/
def truthy : Value → Bool
  | .vNone => false
  | .vBool b => b
  | .vInt n => n != 0
  | .vFloat f =>
    match f with
    | .finite r => !(r == zeroFloatRepr || r == negZeroFloatRepr)
    | _ => true
  | .vStr s => !s.isEmpty
  | .vList xs => !xs.isEmpty
  | .vTuple xs => !xs.isEmpty
  | .vDict kvs => !kvs.isEmpty
  | .vOther _ => true

/-- The association list of a mapping value (callers establish the value is
a mapping before using this). -/
def asDict : Value → List (String × Value)
  | .vDict kvs => kvs
  | _ => []

/-- Model of `isinstance(param, dict) and param.get('_is_data_object',
False)` (server.py line 55): a mapping whose discriminator entry is
truthy. -/
def isDataObjectParam : Value → Bool
  | .vDict kvs => truthy ((dictGet kvs dataFlagKey).getD (.vBool false))
  | _ => false

/-- Model of iterating a Python value (`for arg in data_args`): sequences
yield elements, strings yield one-character strings, mappings yield their
keys, anything else raises `TypeError` (message abbreviated; no claim
depends on its text). -/
def pyIter : Value → Except String (List Value)
  | .vList xs => .ok xs
  | .vTuple xs => .ok xs
  | .vStr s => .ok (s.data.map (fun c => .vStr ⟨[c]⟩))
  | .vDict kvs => .ok (kvs.map (fun kv => .vStr kv.1))
  | _ => .error "object is not iterable"

/-- Model of `v.items()`: defined for mappings, an `AttributeError` for
anything else (message abbreviated; no claim depends on its text). -/
def pyItems : Value → Except String (List (String × Value))
  | .vDict kvs => .ok kvs
  | _ => .error "object has no attribute items"

/-! The `Data` envelope of `utils.py`. -/

/-- Embedding of the `Data` class state after `__init__` (utils.py lines
104-114).  `result = .vNone` models Python `None` (the field the wire view
omits); `error = none` likewise models `None`. -/
structure Data where
  args : List Value
  kwargs : List (String × Value)
  timestamp : String
  response_code : Int
  error : Option String
  result : Value

/-- Whether a value is Python `None`. -/
def isNoneV : Value → Bool
  | .vNone => true
  | _ => false

/-- Embedding of `Data._get_dict_data` (utils.py lines 128-145): the full
field mapping in declaration order with `None`-valued entries removed.
`args`, `kwargs`, `timestamp` and `response_code` are never `None` (they
hold a list, a dict, a string and an int), so only `error` and `result`
can be dropped; the discriminator flag is always `True`. -/
def Data.get_dict_data (d : Data) : List (String × Value) :=
  [(argsKey, .vList d.args), (kwargsKey, .vDict d.kwargs),
   (timestampKey, .vStr d.timestamp), (responseCodeKey, .vInt d.response_code)]
  ++ (match d.error with
      | some e => [(errorKey, .vStr e)]
      | none => [])
  ++ (if isNoneV d.result then [] else [(resultKey, d.result)])
  ++ [(dataFlagKey, .vBool true)]

/-- A positional argument handed to the client proxy: either a plain value
or an already-constructed `Data` envelope (the manual-control case the
adapter checks for). -/
inductive CallArg where
  | val (v : Value)
  | dataObj (d : Data)

/-- What a call argument contributes to a constructed envelope's `args`
list.  A plain value is encoded (`convert_value_for_xmlrpc`); a `Data`
instance matches none of the codec's type checks and passes through
unchanged, and the transport later marshals it through its mapping
interface, which the model folds in here as its wire dictionary. -/
def CallArg.toWire : CallArg → Value
  | .val v => convert_value_for_xmlrpc v
  | .dataObj d => .vDict d.get_dict_data

/-- Embedding of `Data.__init__` (utils.py lines 104-114): positional and
keyword values are encoded at construction, the timestamp is recorded (it
is an effectful clock read, so the model takes it as a parameter), the
status code defaults to `0`, and the result is encoded unless it is
`None`. -/
def mkData (ts : String) (args : List CallArg) (kwargs : List (String × Value))
    (response_code : Option Int) (error : Option String) (result : Value) : Data :=
  { args := args.map CallArg.toWire
    kwargs := kwargs.map (fun kv => (kv.1, convert_value_for_xmlrpc kv.2))
    timestamp := ts
    response_code :=
      match response_code with
      | some c => c
      | none => 0
    error := error
    result := if isNoneV result then result else convert_value_for_xmlrpc result }

/-! The client call adapter of `client.py`. -/

/-- What the adapter hands to the transport for one call. -/
inductive SendPayload where
  | raw (params : List CallArg)
  | wrapped (d : Data)

/-- Embedding of `DataServerProxy._Method.__call__` (client.py lines
26-46): introspection calls and calls whose first positional argument is
already a `Data` instance forward the argument tuple untouched; every
other call wraps all positional and keyword arguments in one fresh `Data`
envelope sent as the single positional parameter. -/
def methodCall (name : String) (args : List CallArg)
    (kwargs : List (String × Value)) (ts : String) : SendPayload :=
  if pyStartsWith name sysNamespace then .raw args
  else
    match args with
    | .dataObj _ :: _ => .raw args
    | _ => .wrapped (mkData ts args kwargs none none .vNone)

/-! The server dispatch interceptor of `server.py`. -/

/-- A registered handler: the effective positional sequence and keyword
mapping in, a normal return or a raised exception's message out. -/
abbrev PyHandler := List Value → List (String × Value) → Except String Value

/-- One iteration of the parameter loop (server.py lines 53-68): an
Envelope-shaped parameter contributes its decoded `args` (default `()`)
appended to the accumulated positional list and its decoded `kwargs`
(default an empty dict) merged into the accumulated keyword mapping; any
other parameter is decoded and appended.  A shape failure while iterating
or taking items is the raised exception the dispatcher's `except` catches. -/
def unpackStep (acc : List Value × List (String × Value)) (p : Value) :
    Except String (List Value × List (String × Value)) :=
  if isDataObjectParam p then
    match pyIter ((dictGet (asDict p) argsKey).getD (.vTuple [])) with
    | .error e => .error e
    | .ok dataArgs =>
      match pyItems ((dictGet (asDict p) kwargsKey).getD (.vDict [])) with
      | .error e => .error e
      | .ok dataKwargs =>
        .ok (acc.1 ++ dataArgs.map convert_value_from_xmlrpc,
             dictUpdate acc.2
               (dataKwargs.map (fun kv => (kv.1, convert_value_from_xmlrpc kv.2))))
  else
    .ok (acc.1 ++ [convert_value_from_xmlrpc p], acc.2)

/-- The parameter loop (`for param in params`). -/
def unpackParams : List Value → (List Value × List (String × Value)) →
    Except String (List Value × List (String × Value))
  | [], acc => .ok acc
  | p :: ps, acc =>
    match unpackStep acc p with
    | .error e => .error e
    | .ok acc2 => unpackParams ps acc2

/-- The error message for an unresolvable method (server.py line 45). -/
def notSupportedMsg (method : String) : String :=
  "Method \"" ++ method ++ "\" is not supported!"

/-- What `_dispatch` produces: introspection calls are delegated to the
transport's built-in dispatcher; everything else yields a response wire
mapping. -/
inductive DispatchOutcome where
  | delegated (method : String) (params : List Value)
  | response (wire : List (String × Value))

/-- Embedding of `ThreadedXMLRPCServer._dispatch` (server.py lines 30-85).
The handler registry (`self.funcs` plus `getattr` on the registered
instance) is abstracted as the `lookup` parameter; `ts` stands for the
clock reads taken when response envelopes are constructed.  The source
calls `func(*args, **kwargs)` when keyword arguments were accumulated and
`func(*args)` otherwise; both are `func args kwargs` here, with `kwargs`
possibly empty.  Every exception raised inside the `try` block — during
parameter unpacking or by the handler — becomes a `400` response carrying
the exception's message; a missing handler becomes a `404` response. -/
def dispatch (lookup : String → Option PyHandler) (ts : String)
    (method : String) (params : List Value) : DispatchOutcome :=
  if pyStartsWith method sysNamespace then .delegated method params
  else
    match lookup method with
    | none =>
      .response (mkData ts [] [] (some 404) (some (notSupportedMsg method)) .vNone).get_dict_data
    | some func =>
      match unpackParams params ([], []) with
      | .error e => .response (mkData ts [] [] (some 400) (some e) .vNone).get_dict_data
      | .ok acc =>
        match func acc.1 acc.2 with
        | .error e => .response (mkData ts [] [] (some 400) (some e) .vNone).get_dict_data
        | .ok r => .response (mkData ts [] [] (some 200) none r).get_dict_data

/-! The demo handlers of `server.py` (`MathFunctions`). -/

/-- Numeric view of a value as Python sees it for integer arithmetic:
booleans are an `int` subtype (`True` is `1`). -/
def pyToInt : Value → Option Int
  | .vBool b => some (if b then 1 else 0)
  | .vInt n => some n
  | _ => none

/-- Model of Python `y == 0`: integer zero, `False`, and float zero compare
equal to `0`; nothing else in the value space does.  The float branch
recognizes the canonical zero renderings `0.0`/`-0.0`, the only zero
forms `str()` emits; non-canonical zero texts (such as `0e0`) denote
model-only float values that no judged theorem constructs. -/
def pyIsZero : Value → Bool
  | .vInt n => n == 0
  | .vBool b => !b
  | .vFloat f =>
    match f with
    | .finite r => r == zeroFloatRepr || r == negZeroFloatRepr
    | _ => false
  | _ => false

/-- Python argument binding for a two-parameter signature `(x, y)` from the
effective positional and keyword values.  Mis-bindings raise `TypeError`;
the exact message texts are abbreviated (no claim depends on them). -/
def bindXY (args : List Value) (kwargs : List (String × Value)) :
    Except String (Value × Value) :=
  match args with
  | [a, b] =>
    if kwargs.isEmpty then .ok (a, b) else .error "unexpected keyword arguments"
  | [a] =>
    match dictGet kwargs "y" with
    | some b => if kwargs.length == 1 then .ok (a, b) else .error "unexpected keyword arguments"
    | none => .error "missing argument y"
  | [] =>
    match dictGet kwargs "x", dictGet kwargs "y" with
    | some a, some b =>
      if kwargs.length == 2 then .ok (a, b) else .error "unexpected keyword arguments"
    | _, _ => .error "missing arguments"
  | _ => .error "too many positional arguments"

/-- Integer `x + y` (`MathFunctions.add`).  The demo traffic is integral;
Python would also add floats, concatenate strings and so on, operations
outside the model's arithmetic (no claim evaluates them). -/
def pyAdd (x y : Value) : Except String Value :=
  match pyToInt x, pyToInt y with
  | some a, some b => .ok (.vInt (a + b))
  | _, _ => .error "unsupported operand type"

/-- Integer `x - y` (`MathFunctions.subtract`). -/
def pySub (x y : Value) : Except String Value :=
  match pyToInt x, pyToInt y with
  | some a, some b => .ok (.vInt (a - b))
  | _, _ => .error "unsupported operand type"

/-- Integer `x * y` (`MathFunctions.multiply`). -/
def pyMul (x y : Value) : Except String Value :=
  match pyToInt x, pyToInt y with
  | some a, some b => .ok (.vInt (a * b))
  | _, _ => .error "unsupported operand type"

/-- The divide-by-zero message raised by `MathFunctions.divide`
(server.py line 108). -/
def divByZeroMsg : String := "Cannot divide by zero"

/-- Embedding of `MathFunctions.divide` (server.py lines 105-111): raise
`ValueError("Cannot divide by zero")` when `y == 0`, otherwise return the
true-division quotient.  Python true division produces an IEEE float; the
quotient computation is abstracted as the parameter `fdiv` (no claim
evaluates it). -/
def MathFunctions.divide (fdiv : Value → Value → Value) (x y : Value) :
    Except String Value :=
  if pyIsZero y then .error divByZeroMsg else .ok (fdiv x y)

/-- The `add` handler as dispatched: bind `(x, y)`, then compute. -/
def addHandler : PyHandler := fun args kwargs =>
  match bindXY args kwargs with
  | .error e => .error e
  | .ok p => pyAdd p.1 p.2

/-- The `subtract` handler as dispatched. -/
def subtractHandler : PyHandler := fun args kwargs =>
  match bindXY args kwargs with
  | .error e => .error e
  | .ok p => pySub p.1 p.2

/-- The `multiply` handler as dispatched. -/
def multiplyHandler : PyHandler := fun args kwargs =>
  match bindXY args kwargs with
  | .error e => .error e
  | .ok p => pyMul p.1 p.2

/-- The `divide` handler as dispatched (quotient abstracted as `fdiv`). -/
def divideHandler (fdiv : Value → Value → Value) : PyHandler := fun args kwargs =>
  match bindXY args kwargs with
  | .error e => .error e
  | .ok p => MathFunctions.divide fdiv p.1 p.2

/-- The handler registry produced by `register_functions`: the four
methods of the registered `MathFunctions` instance, resolved by name as
`getattr` does, each binding the signature `(x, y)` before running.  (Raw
`getattr` would also surface inherited dunder attributes; no claim
exercises those names.) -/
def mathLookup (fdiv : Value → Value → Value) : String → Option PyHandler :=
  fun name =>
    if name = "add" then some addHandler
    else if name = "subtract" then some subtractHandler
    else if name = "multiply" then some multiplyHandler
    else if name = "divide" then some (divideHandler fdiv)
    else none

/-! Definitions written from the claims' words, for comparison with the
source-derived definitions above. -/

/-- The elements of an Envelope's optional `args` entry (a sequence when
present and well formed; absent means none). -/
def envSeqItems : Option Value → List Value
  | some (.vList xs) => xs
  | some (.vTuple xs) => xs
  | _ => []

/-- The entries of an Envelope's optional `kwargs` entry. -/
def envMapItems : Option Value → List (String × Value)
  | some (.vDict kvs) => kvs
  | _ => []

/-- Stated from the claim (C3): one parameter's contribution to the
effective call — an Envelope-shaped parameter (it carries the
discriminator flag) has its decoded positional values appended and its
decoded keyword mapping unioned in; any other parameter is decoded
individually and appended. -/
def claimEffectiveStep (acc : List Value × List (String × Value)) (p : Value) :
    List Value × List (String × Value) :=
  if isDataObjectParam p then
    (acc.1 ++ (envSeqItems (dictGet (asDict p) argsKey)).map convert_value_from_xmlrpc,
     dictUpdate acc.2
       ((envMapItems (dictGet (asDict p) kwargsKey)).map
         (fun kv => (kv.1, convert_value_from_xmlrpc kv.2))))
  else
    (acc.1 ++ [convert_value_from_xmlrpc p], acc.2)

/-- Stated from the claim (C3): the effective positional sequence and
keyword mapping accumulated over the parameter list in encounter order. -/
def claimEffective (params : List Value) : List Value × List (String × Value) :=
  params.foldl claimEffectiveStep ([], [])

/-- An Envelope-shaped parameter is well shaped when its `args` entry is a
sequence (or absent) and its `kwargs` entry is a mapping (or absent) — the
shapes every envelope the client constructs has.  Parameters that are not
Envelope-shaped are unconstrained. -/
def wfEnvelopeParam (p : Value) : Bool :=
  if isDataObjectParam p then
    (match (dictGet (asDict p) argsKey).getD (.vTuple []) with
     | .vList _ => true
     | .vTuple _ => true
     | _ => false)
    &&
    (match (dictGet (asDict p) kwargsKey).getD (.vDict []) with
     | .vDict _ => true
     | _ => false)
  else true

/-- All parameters of a call are well shaped. -/
def wfParams (ps : List Value) : Bool := ps.all wfEnvelopeParam

/-! Shape skeletons, for the structural-preservation claim (C2). -/

/-- The structural skeleton of a value: scalars and passthrough values are
atoms; sequences keep their kind; mappings keep their keys. -/
inductive Shape where
  | atom
  | seqList (ss : List Shape)
  | seqTuple (ss : List Shape)
  | mapping (ks : List (String × Shape))

mutual

/-- The shape of a value. -/
def shape : Value → Shape
  | .vList xs => .seqList (shapeList xs)
  | .vTuple xs => .seqTuple (shapeList xs)
  | .vDict kvs => .mapping (shapeKVs kvs)
  | _ => .atom

/-- Shapes of a sequence's elements. -/
def shapeList : List Value → List Shape
  | [] => []
  | x :: xs => shape x :: shapeList xs

/-- Shapes of a mapping's entries. -/
def shapeKVs : List (String × Value) → List (String × Shape)
  | [] => []
  | kv :: kvs => (kv.1, shape kv.2) :: shapeKVs kvs

end

mutual

/-- Stated from the amended claim: the shape transformation `encode`
performs — every tuple-like node becomes list-like, everything else is
preserved. -/
def listifyShape : Shape → Shape
  | .atom => .atom
  | .seqList ss => .seqList (listifyShapeList ss)
  | .seqTuple ss => .seqList (listifyShapeList ss)
  | .mapping ks => .mapping (listifyShapeKVs ks)

/-- `listifyShape` over a list of shapes. -/
def listifyShapeList : List Shape → List Shape
  | [] => []
  | s :: ss => listifyShape s :: listifyShapeList ss

/-- `listifyShape` over mapping entries. -/
def listifyShapeKVs : List (String × Shape) → List (String × Shape)
  | [] => []
  | ks :: kss => (ks.1, listifyShape ks.2) :: listifyShapeKVs kss

end

/-- Whether a value is a tuple-like sequence. -/
def isTupleValue : Value → Bool
  | .vTuple _ => true
  | _ => false

/-- Whether a string is safe from marker re-interpretation by the decoder:
it does not consist of a marker tag followed by a payload
`int(...)`/`float(...)` accepts — whitespace-padded and
underscore-grouped payloads included, so `__INT__ 5` and `__INT__1_0`
are (correctly) not safe.  Computed with the parser models, hence exact
on ASCII text. -/
def strUntagged (s : String) : Bool :=
  !(pyStartsWith s intTag && (parseIntStr (strDrop s 7)).isSome) &&
  !(pyStartsWith s floatTag && (floatParse (strDrop s 9)).isSome)

/-- The scalar values for which the encode/decode round trip restores the
original: booleans, integers, floats with a well-formed rendering, and
ASCII strings the decoder does not re-interpret (the parser models, and
hence `strUntagged`, are exact on ASCII text only, so the string case is
restricted to it). -/
def roundTripOK : Value → Bool
  | .vBool _ => true
  | .vInt _ => true
  | .vFloat f => f.goodRepr
  | .vStr s => asciiOnly s && strUntagged s
  | _ => false

/-- The key list of a wire mapping. -/
def keysOf (kvs : List (String × Value)) : List String := kvs.map (fun kv => kv.1)

/-! Round-trip lemmas for decimal integer text. -/

/-- Little-endian value of a digit list. -/
def valLE : List Nat → Nat
  | [] => 0
  | d :: ds => d + 10 * valLE ds

theorem digitVal_digitChar : ∀ d, d < 10 → digitVal (digitChar d) = some d := by
  decide

theorem isDigitCh_digitChar : ∀ d, d < 10 → isDigitCh (digitChar d) = true := by
  decide

theorem isDigitCh_ne_sign {c : Char} (h : isDigitCh c = true) : c ≠ '-' ∧ c ≠ '+' := by
  constructor <;> rintro rfl <;> revert h <;> decide

theorem natDigitsAux_lt : ∀ fuel n d, d ∈ natDigitsAux fuel n → d < 10 := by
  intro fuel
  induction fuel with
  | zero => intro n d h; simp [natDigitsAux] at h
  | succ k ih =>
    intro n d h
    match n with
    | 0 => simp [natDigitsAux] at h
    | m + 1 =>
      simp only [natDigitsAux, List.mem_cons] at h
      rcases h with h | h
      · subst h; exact Nat.mod_lt _ (by omega)
      · exact ih _ _ h

theorem valLE_natDigitsAux : ∀ fuel n, n ≤ fuel → valLE (natDigitsAux fuel n) = n := by
  intro fuel
  induction fuel with
  | zero => intro n h; interval_cases n; simp [natDigitsAux, valLE]
  | succ k ih =>
    intro n h
    match n with
    | 0 => simp [natDigitsAux, valLE]
    | m + 1 =>
      have hdiv : (m + 1) / 10 ≤ k := by
        have := Nat.div_lt_self (Nat.succ_pos m) (by omega : 1 < 10)
        omega
      simp only [natDigitsAux, valLE, ih _ hdiv]
      omega

theorem valLE_natDigits (n : Nat) : valLE (natDigits n) = n :=
  valLE_natDigitsAux n n (Nat.le_refl n)

theorem natDigits_ne_nil {n : Nat} (h : n ≠ 0) : natDigits n ≠ [] := by
  match n, h with
  | m + 1, _ => simp [natDigits, natDigitsAux]

theorem charsToDigits_map : ∀ l : List Nat, (∀ d ∈ l, d < 10) →
    charsToDigits (l.map digitChar) = some l := by
  intro l
  induction l with
  | nil => intro _; rfl
  | cons d ds ih =>
    intro h
    have hd : d < 10 := h d (List.mem_cons_self d ds)
    have hds : ∀ x ∈ ds, x < 10 := fun x hx => h x (List.mem_cons_of_mem d hx)
    simp only [List.map_cons, charsToDigits, digitVal_digitChar d hd, ih hds]

theorem foldl_reverse_valLE : ∀ (l : List Nat) (acc : Nat),
    List.foldl (fun a d => a * 10 + d) acc l.reverse = acc * 10 ^ l.length + valLE l := by
  intro l
  induction l with
  | nil => intro acc; simp [valLE]
  | cons d ds ih =>
    intro acc
    rw [List.reverse_cons, List.foldl_append, ih]
    simp only [List.foldl_cons, List.foldl_nil, List.length_cons, valLE]
    ring

theorem digitsToNat_reverse (l : List Nat) : digitsToNat l.reverse = valLE l := by
  show List.foldl (fun acc d => acc * 10 + d) 0 l.reverse = valLE l
  rw [foldl_reverse_valLE]
  simp

theorem parseNatChars_natRepr (n : Nat) : parseNatChars (natRepr n).data = some n := by
  by_cases h : n = 0
  · subst h; rfl
  · have hne := natDigits_ne_nil h
    have hlt := fun d hd => natDigitsAux_lt n n d hd
    simp only [natRepr, if_neg h]
    show parseNatChars ((natDigits n).map digitChar).reverse = some n
    rw [← List.map_reverse]
    have hlt' : ∀ d ∈ (natDigits n).reverse, d < 10 := by
      intro d hd; exact hlt d (List.mem_reverse.mp hd)
    simp only [parseNatChars, charsToDigits_map _ hlt']
    have hrne : (natDigits n).reverse ≠ [] := by
      simpa using hne
    match hrev : (natDigits n).reverse, hrne with
    | d :: ds, _ =>
      rw [← hrev]
      have : digitsToNat (natDigits n).reverse = n := by
        rw [digitsToNat_reverse, valLE_natDigits]
      rw [hrev] at this
      simp [hrev, this]

theorem natRepr_ne_nil (n : Nat) : (natRepr n).data ≠ [] := by
  by_cases h : n = 0
  · subst h; simp [natRepr]
  · simp only [natRepr, if_neg h]
    show ((natDigits n).map digitChar).reverse ≠ []
    simpa using natDigits_ne_nil h

theorem natRepr_head {n : Nat} {c : Char} {cs : List Char}
    (h : (natRepr n).data = c :: cs) : isDigitCh c = true := by
  by_cases hn : n = 0
  · subst hn
    have : (natRepr 0).data = ['0'] := rfl
    rw [this] at h
    cases h
    decide
  · have hmem : c ∈ (natRepr n).data := by rw [h]; exact List.mem_cons_self c cs
    simp only [natRepr, if_neg hn] at hmem
    have hmem2 : c ∈ ((natDigits n).map digitChar).reverse := hmem
    rw [List.mem_reverse, List.mem_map] at hmem2
    obtain ⟨d, hd, rfl⟩ := hmem2
    exact isDigitCh_digitChar d (natDigitsAux_lt n n d hd)

theorem natRepr_all_digits {n : Nat} : ∀ c ∈ (natRepr n).data, isDigitCh c = true := by
  intro c hc
  by_cases hn : n = 0
  · subst hn
    have h0 : (natRepr 0).data = ['0'] := rfl
    rw [h0] at hc
    simp only [List.mem_singleton] at hc
    subst hc
    decide
  · simp only [natRepr, if_neg hn] at hc
    have hc2 : c ∈ ((natDigits n).map digitChar).reverse := hc
    rw [List.mem_reverse, List.mem_map] at hc2
    obtain ⟨d, hd, rfl⟩ := hc2
    exact isDigitCh_digitChar d (natDigitsAux_lt n n d hd)

theorem isPySpace_eq_false_of_digit {c : Char} (h : isDigitCh c = true) :
    isPySpace c = false := by
  simp only [isDigitCh, Bool.and_eq_true, decide_eq_true_eq] at h
  simp only [isPySpace, Bool.or_eq_false_iff, Bool.and_eq_false_iff,
    decide_eq_false_iff_not, Nat.not_le, beq_eq_false_iff_ne, ne_eq]
  omega

theorem dropWhile_isPySpace_eq_self : ∀ {cs : List Char},
    (∀ c ∈ cs, isPySpace c = false) → cs.dropWhile isPySpace = cs
  | [], _ => rfl
  | c :: rest, h => by
    simp [List.dropWhile_cons, h c (List.mem_cons_self c rest)]

theorem stripWs_eq_self {cs : List Char} (h : ∀ c ∈ cs, isPySpace c = false) :
    stripWs cs = cs := by
  unfold stripWs
  rw [dropWhile_isPySpace_eq_self h,
    dropWhile_isPySpace_eq_self (fun c hc => h c (List.mem_reverse.mp hc)),
    List.reverse_reverse]

theorem digitRunRest_all_digits : ∀ (cs : List Char),
    (∀ c ∈ cs, isDigitCh c = true) → digitRunRest cs = []
  | [], _ => rfl
  | c :: rest, h => by
    have hc : isDigitCh c = true := h c (List.mem_cons_self c rest)
    have step : digitRunRest (c :: rest) = digitRunRest rest := by
      conv_lhs => rw [digitRunRest.eq_def]
      simp [hc]
    rw [step]
    exact digitRunRest_all_digits rest (fun x hx => h x (List.mem_cons_of_mem c hx))

theorem digit_ne_underscore {c : Char} (h : isDigitCh c = true) : (c != '_') = true := by
  simp only [bne_iff_ne, ne_eq]
  rintro rfl
  exact absurd h (by decide)

theorem digit_filter_underscore {cs : List Char} (h : ∀ c ∈ cs, isDigitCh c = true) :
    cs.filter (fun c => c != '_') = cs :=
  List.filter_eq_self.mpr (fun c hc => digit_ne_underscore (h c hc))

theorem parseNatRun_natRepr (m : Nat) : parseNatRun (natRepr m).data = some m := by
  have hall : ∀ c ∈ (natRepr m).data, isDigitCh c = true := natRepr_all_digits
  have hlead : leadDigit (natRepr m).data = true := by
    rcases hd : (natRepr m).data with _ | ⟨c, cs⟩
    · exact absurd hd (natRepr_ne_nil m)
    · simpa [leadDigit] using natRepr_head hd
  have hrun : digitRunRest (natRepr m).data = [] := digitRunRest_all_digits _ hall
  have hfil : (natRepr m).data.filter (fun c => c != '_') = (natRepr m).data :=
    digit_filter_underscore hall
  simp [parseNatRun, hlead, hrun, hfil, parseNatChars_natRepr]

theorem parseIntStr_eq_of_strip {s : String} {c : Char} {rest : List Char}
    (h : stripWs s.data = c :: rest) :
    parseIntStr s =
      (if c = '-' then (parseNatRun rest).map (fun m => -(Int.ofNat m))
       else if c = '+' then (parseNatRun rest).map (fun m => Int.ofNat m)
       else (parseNatRun (c :: rest)).map (fun m => Int.ofNat m)) := by
  simp only [parseIntStr, h]

theorem parseIntStr_intRepr (n : Int) : parseIntStr (intRepr n) = some n := by
  by_cases hn : n < 0
  · simp only [intRepr, if_pos hn]
    have habs : -Int.ofNat n.natAbs = n := by
      rw [Int.ofNat_eq_natCast]
      omega
    have hstrip : stripWs (("-" ++ natRepr n.natAbs).data)
        = '-' :: (natRepr n.natAbs).data := by
      show stripWs ('-' :: (natRepr n.natAbs).data) = '-' :: (natRepr n.natAbs).data
      refine stripWs_eq_self ?_
      intro c hc
      rcases List.mem_cons.mp hc with rfl | hc
      · rfl
      · exact isPySpace_eq_false_of_digit (natRepr_all_digits c hc)
    rw [parseIntStr_eq_of_strip hstrip, if_pos rfl, parseNatRun_natRepr,
      Option.map_some', habs]
  · have habs : Int.ofNat n.natAbs = n := by
      rw [Int.ofNat_eq_natCast]
      omega
    simp only [intRepr, if_neg hn]
    have hstrip : stripWs (natRepr n.natAbs).data = (natRepr n.natAbs).data :=
      stripWs_eq_self
        (fun c hc => isPySpace_eq_false_of_digit (natRepr_all_digits c hc))
    rcases hd : (natRepr n.natAbs).data with _ | ⟨c, cs⟩
    · exact absurd hd (natRepr_ne_nil n.natAbs)
    · have hdig := natRepr_head hd
      obtain ⟨hne1, hne2⟩ := isDigitCh_ne_sign hdig
      rw [parseIntStr_eq_of_strip (hstrip.trans hd), if_neg hne1, if_neg hne2, ← hd,
        parseNatRun_natRepr, Option.map_some', habs]

/-! Marker-prefix lemmas. -/

theorem hasPre_append (p l : List Char) : hasPre p (p ++ l) = true := by
  induction p with
  | nil => rfl
  | cons c cs ih => simp [hasPre, ih]

theorem pyStartsWith_intTag_append (r : String) :
    pyStartsWith (intTag ++ r) intTag = true := by
  show hasPre intTag.data (intTag.data ++ r.data) = true
  exact hasPre_append _ _

theorem pyStartsWith_floatTag_append (r : String) :
    pyStartsWith (floatTag ++ r) floatTag = true := by
  show hasPre floatTag.data (floatTag.data ++ r.data) = true
  exact hasPre_append _ _

theorem intTag_not_pre_of_floatTag (r : String) :
    pyStartsWith (floatTag ++ r) intTag = false := rfl

theorem strDrop_intTag (r : String) : strDrop (intTag ++ r) 7 = r := by
  show String.mk ((intTag.data ++ r.data).drop 7) = r
  rw [show (7 : Nat) = intTag.data.length from rfl, List.drop_left]

theorem strDrop_floatTag (r : String) : strDrop (floatTag ++ r) 9 = r := by
  show String.mk ((floatTag.data ++ r.data).drop 9) = r
  rw [show (9 : Nat) = floatTag.data.length from rfl, List.drop_left]

/-! Float text round trip. -/

theorem floatParse_floatStr : ∀ {f : PyFloat}, f.goodRepr = true →
    floatParse (floatStr f) = some f := by
  intro f h
  cases f with
  | finite r =>
    have h2 : checkFloatBody (splitSign r.data).2 = true
        ∧ (stripWs r.data == r.data) = true := by
      simpa only [PyFloat.goodRepr, Bool.and_eq_true] using h
    have hs : stripWs r.data = r.data := eq_of_beq h2.2
    simp [floatParse, floatStr, hs, h2.1]
  | inf => rfl
  | negInf => rfl
  | nan => rfl

/-! Scalar round trips through the codec. -/

theorem decode_encode_int (n : Int) :
    convert_value_from_xmlrpc (convert_value_for_xmlrpc (.vInt n)) = .vInt n := by
  show convert_value_from_xmlrpc (.vStr (intTag ++ intRepr n)) = .vInt n
  simp [convert_value_from_xmlrpc, pyStartsWith_intTag_append, strDrop_intTag,
    parseIntStr_intRepr]

theorem decode_encode_float {f : PyFloat} (h : f.goodRepr = true) :
    convert_value_from_xmlrpc (convert_value_for_xmlrpc (.vFloat f)) = .vFloat f := by
  show convert_value_from_xmlrpc (.vStr (floatTag ++ floatStr f)) = .vFloat f
  simp [convert_value_from_xmlrpc, intTag_not_pre_of_floatTag,
    pyStartsWith_floatTag_append, strDrop_floatTag, floatParse_floatStr h]

theorem decode_str_untagged {s : String} (h : strUntagged s = true) :
    convert_value_from_xmlrpc (.vStr s) = .vStr s := by
  rw [strUntagged] at h
  simp only [Bool.and_eq_true, Bool.not_eq_true', Bool.and_eq_false_iff] at h
  obtain ⟨hi, hf⟩ := h
  by_cases h1 : pyStartsWith s intTag = true
  · have hpn : parseIntStr (strDrop s 7) = none := by
      rcases hi with hi | hi
      · rw [h1] at hi; cases hi
      · exact Option.not_isSome_iff_eq_none.mp (by rw [hi]; exact Bool.false_ne_true)
    simp [convert_value_from_xmlrpc, h1, hpn]
  · by_cases h2 : pyStartsWith s floatTag = true
    · have hpn : floatParse (strDrop s 9) = none := by
        rcases hf with hf | hf
        · rw [h2] at hf; cases hf
        · exact Option.not_isSome_iff_eq_none.mp (by rw [hf]; exact Bool.false_ne_true)
      simp [convert_value_from_xmlrpc, h1, h2, hpn]
    · simp [convert_value_from_xmlrpc, h1, h2]

/-! Idempotence of the encoder. -/

mutual

theorem encode_idem : ∀ v : Value,
    convert_value_for_xmlrpc (convert_value_for_xmlrpc v) = convert_value_for_xmlrpc v
  | .vBool _ => rfl
  | .vInt _ => rfl
  | .vFloat _ => rfl
  | .vStr _ => rfl
  | .vNone => rfl
  | .vOther _ => rfl
  | .vList xs => by
    show Value.vList (convertListFor (convertListFor xs)) = Value.vList (convertListFor xs)
    rw [encodeList_idem xs]
  | .vTuple xs => by
    show Value.vList (convertListFor (convertListFor xs)) = Value.vList (convertListFor xs)
    rw [encodeList_idem xs]
  | .vDict kvs => by
    show Value.vDict (convertKVsFor (convertKVsFor kvs)) = Value.vDict (convertKVsFor kvs)
    rw [encodeKVs_idem kvs]

theorem encodeList_idem : ∀ xs : List Value,
    convertListFor (convertListFor xs) = convertListFor xs
  | [] => rfl
  | x :: xs => by
    show convert_value_for_xmlrpc (convert_value_for_xmlrpc x)
        :: convertListFor (convertListFor xs)
      = convert_value_for_xmlrpc x :: convertListFor xs
    rw [encode_idem x, encodeList_idem xs]

theorem encodeKVs_idem : ∀ kvs : List (String × Value),
    convertKVsFor (convertKVsFor kvs) = convertKVsFor kvs
  | [] => rfl
  | kv :: kvs => by
    show (kv.1, convert_value_for_xmlrpc (convert_value_for_xmlrpc kv.2))
        :: convertKVsFor (convertKVsFor kvs)
      = (kv.1, convert_value_for_xmlrpc kv.2) :: convertKVsFor kvs
    rw [encode_idem kv.2, encodeKVs_idem kvs]

end

/-! Shape preservation of the codec. -/

mutual

theorem shape_decode : ∀ v : Value, shape (convert_value_from_xmlrpc v) = shape v
  | .vBool _ => rfl
  | .vInt _ => rfl
  | .vFloat _ => rfl
  | .vNone => rfl
  | .vOther _ => rfl
  | .vStr s => by
    show shape (convert_value_from_xmlrpc (.vStr s)) = Shape.atom
    by_cases h1 : pyStartsWith s intTag = true
    · cases hp : parseIntStr (strDrop s 7) <;>
        simp [convert_value_from_xmlrpc, h1, hp, shape]
    · by_cases h2 : pyStartsWith s floatTag = true
      · cases hp : floatParse (strDrop s 9) <;>
          simp [convert_value_from_xmlrpc, h1, h2, hp, shape]
      · simp [convert_value_from_xmlrpc, h1, h2, shape]
  | .vList xs => by
    show Shape.seqList (shapeList (convertListFrom xs)) = Shape.seqList (shapeList xs)
    rw [shapeList_decode xs]
  | .vTuple xs => by
    show Shape.seqTuple (shapeList (convertListFrom xs)) = Shape.seqTuple (shapeList xs)
    rw [shapeList_decode xs]
  | .vDict kvs => by
    show Shape.mapping (shapeKVs (convertKVsFrom kvs)) = Shape.mapping (shapeKVs kvs)
    rw [shapeKVs_decode kvs]

theorem shapeList_decode : ∀ xs : List Value, shapeList (convertListFrom xs) = shapeList xs
  | [] => rfl
  | x :: xs => by
    show shape (convert_value_from_xmlrpc x) :: shapeList (convertListFrom xs)
      = shape x :: shapeList xs
    rw [shape_decode x, shapeList_decode xs]

theorem shapeKVs_decode : ∀ kvs : List (String × Value),
    shapeKVs (convertKVsFrom kvs) = shapeKVs kvs
  | [] => rfl
  | kv :: kvs => by
    show (kv.1, shape (convert_value_from_xmlrpc kv.2)) :: shapeKVs (convertKVsFrom kvs)
      = (kv.1, shape kv.2) :: shapeKVs kvs
    rw [shape_decode kv.2, shapeKVs_decode kvs]

end

mutual

theorem shape_encode : ∀ v : Value,
    shape (convert_value_for_xmlrpc v) = listifyShape (shape v)
  | .vBool _ => rfl
  | .vInt _ => rfl
  | .vFloat _ => rfl
  | .vStr _ => rfl
  | .vNone => rfl
  | .vOther _ => rfl
  | .vList xs => by
    show Shape.seqList (shapeList (convertListFor xs))
      = Shape.seqList (listifyShapeList (shapeList xs))
    rw [shapeList_encode xs]
  | .vTuple xs => by
    show Shape.seqList (shapeList (convertListFor xs))
      = Shape.seqList (listifyShapeList (shapeList xs))
    rw [shapeList_encode xs]
  | .vDict kvs => by
    show Shape.mapping (shapeKVs (convertKVsFor kvs))
      = Shape.mapping (listifyShapeKVs (shapeKVs kvs))
    rw [shapeKVs_encode kvs]

theorem shapeList_encode : ∀ xs : List Value,
    shapeList (convertListFor xs) = listifyShapeList (shapeList xs)
  | [] => rfl
  | x :: xs => by
    show shape (convert_value_for_xmlrpc x) :: shapeList (convertListFor xs)
      = listifyShape (shape x) :: listifyShapeList (shapeList xs)
    rw [shape_encode x, shapeList_encode xs]

theorem shapeKVs_encode : ∀ kvs : List (String × Value),
    shapeKVs (convertKVsFor kvs) = listifyShapeKVs (shapeKVs kvs)
  | [] => rfl
  | kv :: kvs => by
    show (kv.1, shape (convert_value_for_xmlrpc kv.2)) :: shapeKVs (convertKVsFor kvs)
      = (kv.1, listifyShape (shape kv.2)) :: listifyShapeKVs (shapeKVs kvs)
    rw [shape_encode kv.2, shapeKVs_encode kvs]

end

/-! The dispatcher's parameter loop computes the claim's effective call. -/

theorem pyIter_of_wfArgs {o : Option Value}
    (h : (match o.getD (.vTuple []) with
          | .vList _ => true
          | .vTuple _ => true
          | _ => false) = true) :
    pyIter (o.getD (.vTuple [])) = .ok (envSeqItems o) := by
  match o with
  | none => rfl
  | some v =>
    match v, h with
    | .vList _, _ => rfl
    | .vTuple _, _ => rfl
    | .vNone, h => exact Bool.noConfusion h
    | .vBool _, h => exact Bool.noConfusion h
    | .vInt _, h => exact Bool.noConfusion h
    | .vFloat _, h => exact Bool.noConfusion h
    | .vStr _, h => exact Bool.noConfusion h
    | .vDict _, h => exact Bool.noConfusion h
    | .vOther _, h => exact Bool.noConfusion h

theorem pyItems_of_wfKwargs {o : Option Value}
    (h : (match o.getD (.vDict []) with
          | .vDict _ => true
          | _ => false) = true) :
    pyItems (o.getD (.vDict [])) = .ok (envMapItems o) := by
  match o with
  | none => rfl
  | some v =>
    match v, h with
    | .vDict _, _ => rfl
    | .vNone, h => exact Bool.noConfusion h
    | .vBool _, h => exact Bool.noConfusion h
    | .vInt _, h => exact Bool.noConfusion h
    | .vFloat _, h => exact Bool.noConfusion h
    | .vStr _, h => exact Bool.noConfusion h
    | .vList _, h => exact Bool.noConfusion h
    | .vTuple _, h => exact Bool.noConfusion h
    | .vOther _, h => exact Bool.noConfusion h

theorem unpackStep_wf {acc : List Value × List (String × Value)} {p : Value}
    (h : wfEnvelopeParam p = true) :
    unpackStep acc p = .ok (claimEffectiveStep acc p) := by
  by_cases hd : isDataObjectParam p = true
  · have h' := h
    rw [wfEnvelopeParam, if_pos hd] at h'
    simp only [Bool.and_eq_true] at h'
    obtain ⟨hA, hB⟩ := h'
    simp only [unpackStep, claimEffectiveStep, if_pos hd,
      pyIter_of_wfArgs hA, pyItems_of_wfKwargs hB]
  · simp only [unpackStep, claimEffectiveStep, if_neg hd]

theorem unpackParams_wf : ∀ (ps : List Value) (acc : List Value × List (String × Value)),
    wfParams ps = true → unpackParams ps acc = .ok (ps.foldl claimEffectiveStep acc)
  | [], _, _ => rfl
  | p :: ps, acc, h => by
    have h' : wfEnvelopeParam p = true ∧ wfParams ps = true := by
      rw [wfParams, List.all_cons] at h
      simpa only [Bool.and_eq_true] using h
    rw [unpackParams, unpackStep_wf h'.1, List.foldl_cons]
    exact unpackParams_wf ps _ h'.2

/-! Dispatch outcome lemmas. -/

theorem dispatch_delegates {lookup : String → Option PyHandler} {ts m : String}
    {params : List Value} (hm : pyStartsWith m sysNamespace = true) :
    dispatch lookup ts m params = .delegated m params := by
  simp [dispatch, hm]

theorem dispatch_notfound {lookup : String → Option PyHandler} {ts m : String}
    {params : List Value} (hm : pyStartsWith m sysNamespace = false)
    (hl : lookup m = none) :
    dispatch lookup ts m params =
      .response (mkData ts [] [] (some 404) (some (notSupportedMsg m)) .vNone).get_dict_data := by
  simp [dispatch, hm, hl]

theorem dispatch_handler_wf {lookup : String → Option PyHandler} {ts m : String}
    {params : List Value} {func : PyHandler}
    (hm : pyStartsWith m sysNamespace = false)
    (hl : lookup m = some func)
    (hw : wfParams params = true) :
    dispatch lookup ts m params =
      (match func (claimEffective params).1 (claimEffective params).2 with
       | .error e =>
         .response (mkData ts [] [] (some 400) (some e) .vNone).get_dict_data
       | .ok r => .response (mkData ts [] [] (some 200) none r).get_dict_data) := by
  simp only [dispatch, hm, Bool.false_eq_true, if_false, hl,
    unpackParams_wf params ([], []) hw, claimEffective]

theorem dispatch_handler_error {lookup : String → Option PyHandler} {ts m : String}
    {params : List Value} {func : PyHandler}
    {acc : List Value × List (String × Value)} {e : String}
    (hm : pyStartsWith m sysNamespace = false)
    (hl : lookup m = some func)
    (hu : unpackParams params ([], []) = .ok acc)
    (hf : func acc.1 acc.2 = .error e) :
    dispatch lookup ts m params =
      .response (mkData ts [] [] (some 400) (some e) .vNone).get_dict_data := by
  simp only [dispatch, hm, Bool.false_eq_true, if_false, hl, hu, hf]

/-! Claim theorems. -/

/-- Claim C1 (counterexample): the claim asserts the decode-encode round
trip restores every string, including strings that already begin with a
marker tag.  It fails: the encoder leaves the string `__INT__5` unchanged
and the decoder then re-interprets it as the integer `5`, so the restored
value differs from the original and its kind changes from string to
integer. -/
theorem c1_counterexample :
    convert_value_from_xmlrpc (convert_value_for_xmlrpc (.vStr "__INT__5")) = .vInt 5 ∧
    Value.vInt 5 ≠ Value.vStr "__INT__5" :=
  ⟨rfl, fun h => Value.noConfusion h⟩

/-- Claim C1 (amended): for every supported scalar — boolean, integer,
float with a well-formed `str()` rendering, or ASCII string that does not
consist of a marker tag followed by a payload `int(...)`/`float(...)`
accepts (whitespace padding and digit-group underscores included) — the
decode-encode round trip returns the original value with its original
kind: `convert_value_from_xmlrpc (convert_value_for_xmlrpc v) = v`.  (A
string of tag-plus-parsable-payload, such as `__INT__5` or `__INT__ 5`,
is instead re-interpreted as the tagged numeric kind, as the
counterexample shows; the string case is restricted to ASCII, the domain
on which the parser models are exact.) -/
theorem c1_roundtrip_amended (v : Value) (h : roundTripOK v = true) :
    convert_value_from_xmlrpc (convert_value_for_xmlrpc v) = v := by
  cases v with
  | vBool b => rfl
  | vInt n => exact decode_encode_int n
  | vFloat f => exact decode_encode_float h
  | vStr s =>
    show convert_value_from_xmlrpc (.vStr s) = .vStr s
    have h2 : asciiOnly s = true ∧ strUntagged s = true := by
      simpa only [roundTripOK, Bool.and_eq_true] using h
    exact decode_str_untagged h2.2
  | vNone => exact Bool.noConfusion h
  | vList xs => exact Bool.noConfusion h
  | vTuple xs => exact Bool.noConfusion h
  | vDict kvs => exact Bool.noConfusion h
  | vOther t => exact Bool.noConfusion h

/-- Witness for C1's amended theorem at concrete scalars: the float
`3.14`, the integer `-17`, and the marker-looking but unparsable string
`__INT__` all round-trip. -/
theorem c1_witness :
    convert_value_from_xmlrpc (convert_value_for_xmlrpc (.vFloat (.finite "3.14")))
      = .vFloat (.finite "3.14") ∧
    convert_value_from_xmlrpc (convert_value_for_xmlrpc (.vInt (-17))) = .vInt (-17) ∧
    convert_value_from_xmlrpc (convert_value_for_xmlrpc (.vStr "__INT__")) = .vStr "__INT__" :=
  ⟨c1_roundtrip_amended (.vFloat (.finite "3.14")) rfl,
   c1_roundtrip_amended (.vInt (-17)) rfl,
   c1_roundtrip_amended (.vStr "__INT__") rfl⟩

/-- Claim C2 (counterexample): the claim asserts encoding a tuple-like
sequence yields a tuple-like sequence.  It fails: the encoder rebuilds
both sequence kinds with a list comprehension, so the tuple `(1,)`
encodes to the list `["__INT__1"]`, which is not tuple-like. -/
theorem c2_counterexample :
    convert_value_for_xmlrpc (.vTuple [.vInt 1]) = .vList [.vStr "__INT__1"] ∧
    isTupleValue (convert_value_for_xmlrpc (.vTuple [.vInt 1])) = false :=
  ⟨rfl, rfl⟩

/-- Claim C2 (amended): for every nested value, `convert_value_from_xmlrpc`
preserves the shape exactly — mapping keys, per-level structure and
sequence kind (list-like vs tuple-like) — while
`convert_value_for_xmlrpc` preserves mapping keys and per-level structure
but produces a list-like sequence for both list-like and tuple-like
sequences at every level. -/
theorem c2_shape_amended (v : Value) :
    shape (convert_value_from_xmlrpc v) = shape v ∧
    shape (convert_value_for_xmlrpc v) = listifyShape (shape v) :=
  ⟨shape_decode v, shape_encode v⟩

/-- Claim C7: booleans are returned unchanged by the encoder and are never
tagged as `__INT__` strings, because the `bool` check precedes the `int`
check in the source even though Python treats `bool` as an `int`
subtype. -/
theorem c7_bool_passthrough (b : Bool) :
    convert_value_for_xmlrpc (.vBool b) = .vBool b ∧
    ∀ s : String, convert_value_for_xmlrpc (.vBool b) ≠ .vStr s :=
  ⟨rfl, fun _ h => Value.noConfusion h⟩

/-- Claim C10: the encoder is idempotent over the supported value space —
encoding produces only booleans, marker strings, plain strings, untouched
values, and sequences/mappings thereof, none of which a second encode
tags again. -/
theorem c10_encode_idempotent (v : Value) :
    convert_value_for_xmlrpc (convert_value_for_xmlrpc v) = convert_value_for_xmlrpc v :=
  encode_idem v

/-- Claim C3: for every non-introspection call with a registered handler
and a well-shaped parameter list, the dispatcher invokes the handler with
exactly the effective positional sequence and keyword mapping accumulated
in encounter order — each Envelope-shaped parameter contributing its
decoded `args` (appended) and decoded `kwargs` (unioned), every other
parameter decoded and appended — and wraps the handler's outcome; in
particular two Envelope-shaped parameters, one carrying the positional
value `10` and one the keyword value `y = 5`, merge into the single
effective call `(10, y = 5)`. -/
theorem c3_dispatch_effective :
    (∀ (lookup : String → Option PyHandler) (ts m : String) (params : List Value)
        (func : PyHandler),
      pyStartsWith m sysNamespace = false → lookup m = some func →
      wfParams params = true →
      dispatch lookup ts m params =
        (match func (claimEffective params).1 (claimEffective params).2 with
         | .error e =>
           .response (mkData ts [] [] (some 400) (some e) .vNone).get_dict_data
         | .ok r => .response (mkData ts [] [] (some 200) none r).get_dict_data)) ∧
    (∀ (lookup : String → Option PyHandler) (ts m ts2 ts3 : String) (func : PyHandler),
      pyStartsWith m sysNamespace = false → lookup m = some func →
      dispatch lookup ts m
        [.vDict (mkData ts2 [.val (.vInt 10)] [] none none .vNone).get_dict_data,
         .vDict (mkData ts3 [] [("y", .vInt 5)] none none .vNone).get_dict_data] =
        (match func [.vInt 10] [("y", .vInt 5)] with
         | .error e =>
           .response (mkData ts [] [] (some 400) (some e) .vNone).get_dict_data
         | .ok r => .response (mkData ts [] [] (some 200) none r).get_dict_data)) := by
  constructor
  · intro lookup ts m params func hm hl hw
    exact dispatch_handler_wf hm hl hw
  · intro lookup ts m ts2 ts3 func hm hl
    have hw : wfParams
        [Value.vDict (mkData ts2 [CallArg.val (Value.vInt 10)] [] none none Value.vNone).get_dict_data,
         Value.vDict (mkData ts3 [] [("y", Value.vInt 5)] none none Value.vNone).get_dict_data]
        = true := rfl
    rw [dispatch_handler_wf hm hl hw]
    rfl

/-- Witness for C3 at the registered `add` handler: the positional
envelope carrying `10` and the keyword envelope carrying `y = 5` merge
into one call computing `15`, returned as a `200` response. -/
theorem c3_witness :
    dispatch (mathLookup fun _ _ => .vNone) "t0" "add"
      [.vDict (mkData "t1" [.val (.vInt 10)] [] none none .vNone).get_dict_data,
       .vDict (mkData "t2" [] [("y", .vInt 5)] none none .vNone).get_dict_data]
    = .response (mkData "t0" [] [] (some 200) none (.vInt 15)).get_dict_data :=
  (c3_dispatch_effective.2 (mathLookup fun _ _ => .vNone) "t0" "add" "t1" "t2"
    addHandler rfl rfl).trans rfl

/-- Claim C4: a handler exception never escapes the dispatcher — it is
caught and becomes a response Envelope with `response_code` 400 and the
exception's message as the `error` field; in particular dispatching
`divide` with the keyword values `x = 10`, `y = 0` yields the `400`
response carrying `Cannot divide by zero`. -/
theorem c4_handler_error :
    (∀ (lookup : String → Option PyHandler) (ts m : String) (params : List Value)
        (func : PyHandler) (acc : List Value × List (String × Value)) (e : String),
      pyStartsWith m sysNamespace = false → lookup m = some func →
      unpackParams params ([], []) = .ok acc → func acc.1 acc.2 = .error e →
      dispatch lookup ts m params =
        .response (mkData ts [] [] (some 400) (some e) .vNone).get_dict_data) ∧
    (∀ (ts e : String),
      dictGet (mkData ts [] [] (some 400) (some e) .vNone).get_dict_data responseCodeKey
        = some (.vInt 400) ∧
      dictGet (mkData ts [] [] (some 400) (some e) .vNone).get_dict_data errorKey
        = some (.vStr e)) ∧
    (∀ (fdiv : Value → Value → Value) (ts ts2 : String),
      dispatch (mathLookup fdiv) ts "divide"
        [.vDict (mkData ts2 [] [("x", .vInt 10), ("y", .vInt 0)] none none .vNone).get_dict_data]
      = .response (mkData ts [] [] (some 400) (some divByZeroMsg) .vNone).get_dict_data) := by
  refine ⟨?_, ?_, ?_⟩
  · intro lookup ts m params func acc e hm hl hu hf
    exact dispatch_handler_error hm hl hu hf
  · intro ts e
    exact ⟨rfl, rfl⟩
  · intro fdiv ts ts2
    rfl

/-- Witness for C4's guarded part at the registered `divide` handler with
the decoded keyword arguments `x = 10`, `y = 0`. -/
theorem c4_witness :
    dispatch (mathLookup fun _ _ => .vNone) "t0" "divide"
      [.vDict (mkData "t1" [] [("x", .vInt 10), ("y", .vInt 0)] none none .vNone).get_dict_data]
    = .response (mkData "t0" [] [] (some 400) (some divByZeroMsg) .vNone).get_dict_data :=
  c4_handler_error.1 (mathLookup fun _ _ => .vNone) "t0" "divide"
    [.vDict (mkData "t1" [] [("x", .vInt 10), ("y", .vInt 0)] none none .vNone).get_dict_data]
    (divideHandler fun _ _ => .vNone)
    ([], [("x", .vInt 10), ("y", .vInt 0)]) divByZeroMsg rfl rfl rfl rfl

/-- Claim C5: an inbound call outside the introspection namespace whose
name resolves to no registered handler returns (without raising) a
response Envelope with `response_code` 404 whose error message names the
unresolved method. -/
theorem c5_not_found :
    (∀ (lookup : String → Option PyHandler) (ts m : String) (params : List Value),
      pyStartsWith m sysNamespace = false → lookup m = none →
      dispatch lookup ts m params =
        .response (mkData ts [] [] (some 404) (some (notSupportedMsg m)) .vNone).get_dict_data) ∧
    (∀ m : String, ∃ u w : String, notSupportedMsg m = u ++ m ++ w) ∧
    (∀ (ts m : String),
      dictGet (mkData ts [] [] (some 404) (some (notSupportedMsg m)) .vNone).get_dict_data
        responseCodeKey = some (.vInt 404)) := by
  refine ⟨?_, ?_, ?_⟩
  · intro lookup ts m params hm hl
    exact dispatch_notfound hm hl
  · intro m
    exact ⟨"Method \"", "\" is not supported!", rfl⟩
  · intro ts m
    rfl

/-- Witness for C5 at the unregistered method name `doesNotExist` against
the demo registry. -/
theorem c5_witness :
    dispatch (mathLookup fun _ _ => .vNone) "t0" "doesNotExist" []
      = .response
          (mkData "t0" [] [] (some 404)
            (some (notSupportedMsg "doesNotExist")) .vNone).get_dict_data :=
  c5_not_found.1 (mathLookup fun _ _ => .vNone) "t0" "doesNotExist" [] rfl rfl

/-- Claim C6: the decoder never raises (it is a total function here, the
parse failure paths returning the input): every ASCII string with the
`__INT__` tag whose remainder `int(...)` rejects, and every ASCII string
with the `__FLOAT__` tag whose remainder `float(...)` rejects, comes back
unchanged; in particular `__INT__` and `__INT__not_a_number` decode to
themselves.  The ASCII hypotheses confine the statements to the domain on
which the parser models are exact — Python also accepts non-ASCII
numerals, which are outside the model. -/
theorem c6_malformed_passthrough :
    (∀ s : String, asciiOnly s = true → pyStartsWith s intTag = true →
      parseIntStr (strDrop s 7) = none →
      convert_value_from_xmlrpc (.vStr s) = .vStr s) ∧
    (∀ r : String, asciiOnly r = true → floatParse r = none →
      convert_value_from_xmlrpc (.vStr (floatTag ++ r)) = .vStr (floatTag ++ r)) ∧
    convert_value_from_xmlrpc (.vStr "__INT__") = .vStr "__INT__" ∧
    convert_value_from_xmlrpc (.vStr "__INT__not_a_number") = .vStr "__INT__not_a_number" := by
  refine ⟨?_, ?_, rfl, rfl⟩
  · intro s _ h1 hp
    simp [convert_value_from_xmlrpc, h1, hp]
  · intro r _ hp
    have h1 := intTag_not_pre_of_floatTag r
    have h2 := pyStartsWith_floatTag_append r
    simp [convert_value_from_xmlrpc, h1, h2, strDrop_floatTag, hp]

/-- Witness for C6's guarded parts: an unparsable integer payload and an
unparsable float payload both pass through unchanged. -/
theorem c6_witness :
    convert_value_from_xmlrpc (.vStr "__INT__9z") = .vStr "__INT__9z" ∧
    convert_value_from_xmlrpc (.vStr (floatTag ++ "x")) = .vStr (floatTag ++ "x") :=
  ⟨c6_malformed_passthrough.1 "__INT__9z" rfl rfl rfl,
   c6_malformed_passthrough.2.1 "x" rfl rfl⟩

theorem isNoneV_encode (r : Value) : isNoneV (convert_value_for_xmlrpc r) = isNoneV r := by
  cases r <;> rfl

/-- Claim C8 (counterexample): the claim asserts the wire mapping of a
response Envelope holds exactly the response-code key, the populated one
of result/error, and the discriminator flag.  It fails: the mapping of a
`200` response with a result also carries `args` (an empty list),
`kwargs` (an empty mapping) and `timestamp`, keys distinct from the three
the claim allows. -/
theorem c8_counterexample :
    keysOf (mkData "t0" [] [] (some 200) none (.vInt 7)).get_dict_data
      = [argsKey, kwargsKey, timestampKey, responseCodeKey, resultKey, dataFlagKey] ∧
    argsKey ≠ responseCodeKey ∧ argsKey ≠ resultKey ∧ argsKey ≠ dataFlagKey ∧
    kwargsKey ≠ responseCodeKey ∧ timestampKey ≠ responseCodeKey := by
  refine ⟨rfl, ?_, ?_, ?_, ?_, ?_⟩ <;> decide

/-- Claim C8 (amended): the wire mapping of a response Envelope (status
code set, exactly one of result/error populated, no positional or keyword
arguments) holds exactly the keys `args`, `kwargs`, `timestamp`,
`response_code`, the populated one of `error`/`result`, and the
discriminator flag, in that order; the field holding `None` (the
unpopulated one of result/error) is omitted. -/
theorem c8_wire_keys_amended :
    (∀ (ts : String) (code : Int) (e : String),
      keysOf (mkData ts [] [] (some code) (some e) .vNone).get_dict_data
        = [argsKey, kwargsKey, timestampKey, responseCodeKey, errorKey, dataFlagKey]) ∧
    (∀ (ts : String) (code : Int) (r : Value), r ≠ .vNone →
      keysOf (mkData ts [] [] (some code) none r).get_dict_data
        = [argsKey, kwargsKey, timestampKey, responseCodeKey, resultKey, dataFlagKey]) := by
  constructor
  · intro ts code e
    rfl
  · intro ts code r hr
    have hn : isNoneV r = false := by
      cases r
      · exact absurd rfl hr
      all_goals rfl
    simp [mkData, Data.get_dict_data, keysOf, hn, isNoneV_encode]

/-- Witness for C8's amended theorem: a `200` response Envelope carrying
the result `7`, and a `400` response carrying an error message. -/
theorem c8_witness :
    keysOf (mkData "t1" [] [] (some 200) none (.vInt 7)).get_dict_data
      = [argsKey, kwargsKey, timestampKey, responseCodeKey, resultKey, dataFlagKey] :=
  c8_wire_keys_amended.2 "t1" 200 (.vInt 7) (fun h => Value.noConfusion h)

/-- Claim C9: the client call adapter forwards introspection calls
unwrapped, forwards the argument tuple untouched when its first element
is already a `Data` envelope, and otherwise wraps all positional and
keyword arguments into one fresh request Envelope sent as the single
positional parameter. -/
theorem c9_client_adapter :
    (∀ (name : String) (args : List CallArg) (kwargs : List (String × Value)) (ts : String),
      pyStartsWith name sysNamespace = true → methodCall name args kwargs ts = .raw args) ∧
    (∀ (name : String) (d : Data) (rest : List CallArg)
        (kwargs : List (String × Value)) (ts : String),
      pyStartsWith name sysNamespace = false →
      methodCall name (.dataObj d :: rest) kwargs ts = .raw (.dataObj d :: rest)) ∧
    (∀ (name : String) (args : List CallArg) (kwargs : List (String × Value)) (ts : String),
      pyStartsWith name sysNamespace = false →
      (∀ (d : Data) (rest : List CallArg), args ≠ .dataObj d :: rest) →
      methodCall name args kwargs ts = .wrapped (mkData ts args kwargs none none .vNone)) := by
  refine ⟨?_, ?_, ?_⟩
  · intro name args kwargs ts hm
    simp [methodCall, hm]
  · intro name d rest kwargs ts hm
    simp [methodCall, hm]
  · intro name args kwargs ts hm hne
    rcases args with _ | ⟨a, rest⟩
    · simp [methodCall, hm]
    · cases a with
      | val v => simp [methodCall, hm]
      | dataObj d => exact absurd rfl (hne d rest)

/-- Witness for C9: a plain `add` call with one positional integer wraps
into a fresh envelope; a `system.` call passes through raw. -/
theorem c9_witness :
    methodCall "add" [.val (.vInt 10)] [] "t0"
      = .wrapped (mkData "t0" [.val (.vInt 10)] [] none none .vNone) ∧
    methodCall "system.listMethods" [.val (.vInt 1)] [] "t0" = .raw [.val (.vInt 1)] := by
  constructor
  · refine c9_client_adapter.2.2 "add" [.val (.vInt 10)] [] "t0" rfl ?_
    intro d rest h
    simp at h
  · exact c9_client_adapter.1 "system.listMethods" [.val (.vInt 1)] [] "t0" rfl
